import Mathlib

/-!
Formal model of the round-robin load balancer.

The model is a shallow embedding of the Go sources:
- `internal/backend/backend.go`: `Backend`, `NewBackend`, `IsAlive`, `SetAlive`
  (the `ReverseProxy` field and URL parsing are irrelevant to the claims and
  the URL is kept as a plain string);
- the `balancer` package: `LoadBalancer`, `New`, `SelectBackend`,
  `GetHealthyBackends`;
- `internal/healthcheck/healthchecker.go`: the liveness decision of
  `checkBackend` (the HTTP transport is abstracted into a probe outcome).

The shared cursor is a `uint64` (`atomic.Uint64`), modelled as a natural
number together with explicit reduction modulo `2 ^ 64` wherever the Go
arithmetic wraps.  `SelectBackend` runs its bounded retry loop sequentially;
liveness flags are fixed during a call, which models the no-concurrency
hypotheses of the claims.  A Go panic (out-of-range slice index) is modelled
as `none`.
-/

namespace LB

/-- `2 ^ 64 = 18446744073709551616`, the modulus of Go's `uint64`
arithmetic. -/
def U64 : Nat := 18446744073709551616

/-- `Backend` from `internal/backend/backend.go`: a URL and a liveness flag.
The `ReverseProxy` field plays no role in any claim and is omitted. -/
structure Backend where
  url : String
  alive : Bool
deriving DecidableEq, Repr

/-- `NewBackend` from `backend.go`: the liveness flag starts `false`. -/
def NewBackend (urlStr : String) : Backend :=
  { url := urlStr, alive := false }

/-- `Backend.IsAlive` from `backend.go`: reads the flag (under `RLock`). -/
def Backend.IsAlive (b : Backend) : Bool := b.alive

/-- `Backend.SetAlive` from `backend.go`: writes the flag (under `Lock`). -/
def Backend.SetAlive (b : Backend) (a : Bool) : Backend := { b with alive := a }

/-- `LoadBalancer` from the `balancer` package: the backend slice and the
shared `atomic.Uint64` cursor. -/
structure LoadBalancer where
  backends : List Backend
  current : Nat
deriving DecidableEq, Repr

/-- `New` from the `balancer` package: an empty backend list is rejected with
the configuration error; otherwise the cursor starts at the zero value of
`atomic.Uint64`. -/
def New (backends : List Backend) : Except String LoadBalancer :=
  if backends.length = 0 then Except.error "at least one backend is required"
  else Except.ok { backends := backends, current := 0 }

/-- `lb.current.Add(1)`: the post-increment value of the `uint64` cursor. -/
def nextCursor (cur : Nat) : Nat := (cur + 1) % U64

/-- `v - 1` in `uint64` arithmetic (wrapping subtraction). -/
def subOne (v : Nat) : Nat := (v + (U64 - 1)) % U64

/-- `idx := (lb.current.Add(1) - 1) % uint64(totalBackends)`: the slice index
computed in each iteration of `SelectBackend`, from the post-increment
cursor value `newCur`. -/
def selectIdx (n newCur : Nat) : Nat := subOne newCur % n

/-- The retry loop of `SelectBackend`.  `fuel` is `totalBackends - attempts`,
the number of loop iterations still permitted; `checks` counts the `IsAlive`
reads already performed.  Each iteration atomically increments the cursor,
indexes the backend slice (`none` models the panic on an out-of-range
index), and returns the backend if its flag reads `true`.  Exhausting the
loop returns the all-offline error.  The result carries the error-or-backend,
the balancer state after the call, and the total number of liveness checks. -/
def selectLoop : LoadBalancer → Nat → Nat →
    Option (Except String Backend × LoadBalancer × Nat)
  | lb, 0, checks => some (Except.error "all backends are offline", lb, checks)
  | lb, fuel + 1, checks =>
    let newCur := nextCursor lb.current
    let lb' : LoadBalancer := { lb with current := newCur }
    let idx := selectIdx lb.backends.length newCur
    match lb.backends[idx]? with
    | none => none
    | some b =>
      if b.IsAlive then some (Except.ok b, lb', checks + 1)
      else selectLoop lb' fuel (checks + 1)

/-- `SelectBackend` from the `balancer` package: at most
`len(lb.backends)` iterations of the retry loop, starting with no checks
performed. -/
def LoadBalancer.SelectBackend (lb : LoadBalancer) :
    Option (Except String Backend × LoadBalancer × Nat) :=
  selectLoop lb lb.backends.length 0

/-- `GetHealthyBackends` from the `balancer` package: the sub-list of
backends whose flag currently reads `true`, in pool order. -/
def LoadBalancer.GetHealthyBackends (lb : LoadBalancer) : List Backend :=
  lb.backends.filter (fun b => b.IsAlive)

/-- Outcome of one health probe as `checkBackend` observes it: either the
`client.Get` call fails (connection failure or the 2-second client timeout),
or it yields a response with some status code. -/
inductive ProbeResult where
  | failure
  | response (status : Nat)
deriving DecidableEq, Repr

/-- The liveness decision of `HealthChecker.checkBackend`
(`internal/healthcheck/healthchecker.go`): on error, `SetAlive(false)`;
on a response, `SetAlive(true)` iff `resp.StatusCode == http.StatusOK`
(that is, exactly 200), else `SetAlive(false)`.  The logging does not
affect the flag and is omitted. -/
def checkBackend (b : Backend) (r : ProbeResult) : Backend :=
  match r with
  | ProbeResult.failure => b.SetAlive false
  | ProbeResult.response status =>
    if status = 200 then b.SetAlive true else b.SetAlive false

/-- Spec-side predicate, for comparison with `checkBackend`: the spec's words
say a response is alive exactly on a status in the 2xx success class. -/
def specAlive2xx : ProbeResult → Bool
  | ProbeResult.failure => false
  | ProbeResult.response status => decide (200 ≤ status) && decide (status < 300)

/-- Sequential driver for the rotation claims: the balancer state after `i`
successive `SelectBackend` calls (`none` once any call panics). -/
def nthState (lb : LoadBalancer) : Nat → Option LoadBalancer
  | 0 => some lb
  | i + 1 =>
    match nthState lb i with
    | none => none
    | some s =>
      match s.SelectBackend with
      | none => none
      | some (_, s2, _) => some s2

/-- The backend returned by the `i`-th sequential `SelectBackend` call
(0-indexed), `none` if that call fails or panics. -/
def nthSelected (lb : LoadBalancer) (i : Nat) : Option Backend :=
  match nthState lb i with
  | none => none
  | some s =>
    match s.SelectBackend with
    | some (Except.ok b, _, _) => some b
    | _ => none

deriving instance DecidableEq for Except

/-! ### Helper lemmas about the selection loop -/

theorem U64_pos : 0 < U64 := by decide

/-- The Go expression `current.Add(1) - 1` recovers the pre-increment value
of the `uint64` cursor, for every representable cursor value. -/
theorem subOne_nextCursor (c : Nat) (h : c < U64) : subOne (nextCursor c) = c := by
  simp only [subOne, nextCursor, U64] at *
  omega

/-- The slice index of one loop iteration is the pre-increment cursor
reduced modulo the pool size. -/
theorem selectIdx_eq (n c : Nat) (h : c < U64) :
    selectIdx n (nextCursor c) = c % n := by
  simp only [selectIdx, subOne_nextCursor c h]

/-- The loop never changes the backend list: only the cursor moves. -/
theorem selectLoop_backends (fuel : Nat) :
    ∀ lb checks r lb' k, selectLoop lb fuel checks = some (r, lb', k) →
      lb'.backends = lb.backends := by
  induction fuel with
  | zero =>
    intro lb checks r lb' k h
    simp only [selectLoop, Option.some.injEq, Prod.mk.injEq] at h
    rw [← h.2.1]
  | succ n ih =>
    intro lb checks r lb' k h
    simp only [selectLoop] at h
    cases hidx : lb.backends[selectIdx lb.backends.length (nextCursor lb.current)]? with
    | none => rw [hidx] at h; cases h
    | some b =>
      rw [hidx] at h
      cases hb : b.IsAlive with
      | true =>
        simp [hb] at h
        rw [← h.2.1]
      | false =>
        simp [hb] at h
        exact ih { backends := lb.backends, current := nextCursor lb.current }
          (checks + 1) r lb' k h

/-- With a non-empty pool the loop never performs an out-of-range access:
it always returns a result (models absence of panic). -/
theorem selectLoop_isSome (fuel : Nat) :
    ∀ lb checks, 0 < lb.backends.length → selectLoop lb fuel checks ≠ none := by
  induction fuel with
  | zero => intro lb checks _ h; cases h
  | succ n ih =>
    intro lb checks hlen h
    simp only [selectLoop] at h
    have hlt : selectIdx lb.backends.length (nextCursor lb.current) <
        lb.backends.length := Nat.mod_lt _ hlen
    rw [List.getElem?_eq_getElem hlt] at h
    cases hb : (lb.backends[selectIdx lb.backends.length
        (nextCursor lb.current)]).IsAlive with
    | true => simp [hb] at h
    | false =>
      simp [hb] at h
      exact ih { backends := lb.backends, current := nextCursor lb.current }
        (checks + 1) hlen h

/-- Any backend the loop hands back was read alive, sits in the pool, and
was found within the remaining fuel's worth of checks. -/
theorem selectLoop_ok (fuel : Nat) :
    ∀ lb checks b lb' k,
      selectLoop lb fuel checks = some (Except.ok b, lb', k) →
      b.IsAlive = true ∧ (∃ i, i < lb.backends.length ∧ lb.backends[i]? = some b)
        ∧ k ≤ checks + fuel := by
  induction fuel with
  | zero =>
    intro lb checks b lb' k h
    simp only [selectLoop, Option.some.injEq, Prod.mk.injEq] at h
    exact absurd h.1 (by simp)
  | succ n ih =>
    intro lb checks b lb' k h
    simp only [selectLoop] at h
    cases hidx : lb.backends[selectIdx lb.backends.length (nextCursor lb.current)]? with
    | none => rw [hidx] at h; cases h
    | some b0 =>
      rw [hidx] at h
      cases hb : b0.IsAlive with
      | true =>
        simp [hb] at h
        obtain ⟨hbb, hlb, hk⟩ := h
        obtain ⟨hlt, _⟩ := List.getElem?_eq_some_iff.mp hidx
        refine ⟨?_, ⟨_, hlt, ?_⟩, ?_⟩
        · rw [← hbb]; exact hb
        · rw [hidx, hbb]
        · omega
      | false =>
        simp [hb] at h
        obtain ⟨h1, h2, h3⟩ := ih _ _ _ _ _ h
        exact ⟨h1, h2, by omega⟩

/-- When every backend in a non-empty pool is dead, the loop consumes all
its fuel, performs one check per unit of fuel, and returns the all-offline
error. -/
theorem selectLoop_allDead (fuel : Nat) :
    ∀ lb checks, 0 < lb.backends.length →
      (∀ b ∈ lb.backends, b.IsAlive = false) →
      ∃ lb', selectLoop lb fuel checks =
          some (Except.error "all backends are offline", lb', checks + fuel) ∧
        lb'.backends = lb.backends := by
  induction fuel with
  | zero =>
    intro lb checks _ _
    exact ⟨lb, rfl, rfl⟩
  | succ n ih =>
    intro lb checks hlen hdead
    have hlt : selectIdx lb.backends.length (nextCursor lb.current) <
        lb.backends.length := Nat.mod_lt _ hlen
    have hmem : lb.backends[selectIdx lb.backends.length (nextCursor lb.current)]
        ∈ lb.backends := List.getElem_mem hlt
    have hd := hdead _ hmem
    obtain ⟨lb', h1, h2⟩ :=
      ih { backends := lb.backends, current := nextCursor lb.current }
        (checks + 1) hlen hdead
    refine ⟨lb', ?_, h2⟩
    simp only [selectLoop, List.getElem?_eq_getElem hlt, hd, Bool.false_eq_true,
      if_false]
    rw [h1]
    have : checks + 1 + n = checks + (n + 1) := by omega
    rw [this]

/-- If the loop exhausts its fuel and reports all backends offline, then
every backend probed during the scan — those at indices
`(current + t) % N` for `t < fuel` — read dead; this needs the scanned
cursor values not to cross the `uint64` wraparound point. -/
theorem selectLoop_error_dead (fuel : Nat) :
    ∀ lb checks e lb' k,
      lb.current + fuel ≤ U64 →
      selectLoop lb fuel checks = some (Except.error e, lb', k) →
      ∀ t, t < fuel → ∀ bt,
        lb.backends[(lb.current + t) % lb.backends.length]? = some bt →
        bt.IsAlive = false := by
  induction fuel with
  | zero => intro lb checks e lb' k _ _ t ht; omega
  | succ n ih =>
    intro lb checks e lb' k hwrap h t ht bt hbt
    have hcur : lb.current < U64 := by omega
    have hidx0 : selectIdx lb.backends.length (nextCursor lb.current) =
        lb.current % lb.backends.length := selectIdx_eq _ _ hcur
    simp only [selectLoop, hidx0] at h
    cases hidx : lb.backends[lb.current % lb.backends.length]? with
    | none => rw [hidx] at h; cases h
    | some b =>
      rw [hidx] at h
      cases hb : b.IsAlive with
      | true => simp [hb] at h
      | false =>
        simp [hb] at h
        cases t with
        | zero =>
          rw [Nat.add_zero] at hbt
          rw [hidx] at hbt
          cases hbt
          exact hb
        | succ s =>
          have hc1 : lb.current + 1 < U64 := by omega
          have hnext : nextCursor lb.current = lb.current + 1 := by
            simp only [nextCursor]
            exact Nat.mod_eq_of_lt hc1
          have := ih { backends := lb.backends, current := nextCursor lb.current }
            (checks + 1) e lb' k
            (by show nextCursor lb.current + n ≤ U64; rw [hnext]; omega)
            h s (by omega) bt
          apply this
          rw [hnext]
          have : lb.current + 1 + s = lb.current + (s + 1) := by omega
          rw [this]
          exact hbt

/-- The `n` consecutive cursor values starting anywhere cover every residue
modulo `n`. -/
theorem exists_shift_mod (n j c : Nat) (hn : 0 < n) (hj : j < n) :
    ∃ t, t < n ∧ (c + t) % n = j := by
  have hcn : c % n < n := Nat.mod_lt _ hn
  rcases le_or_lt (c % n) j with h | h
  · refine ⟨j - c % n, by omega, ?_⟩
    rw [Nat.add_mod, Nat.mod_eq_of_lt (show j - c % n < n by omega)]
    have : c % n + (j - c % n) = j := by omega
    rw [this, Nat.mod_eq_of_lt hj]
  · refine ⟨n - (c % n - j), by omega, ?_⟩
    rw [Nat.add_mod, Nat.mod_eq_of_lt (show n - (c % n - j) < n by omega)]
    have : c % n + (n - (c % n - j)) = n + j := by omega
    rw [this, Nat.add_mod_left, Nat.mod_eq_of_lt hj]

/-- One call of `SelectBackend` on a pool whose backend at index
`current % N` is alive: it returns that backend after a single check and
advances the cursor by one. -/
theorem select_step_alive (bs : List Backend) (c : Nat) (hlen : 0 < bs.length)
    (hc : c < U64) (b : Backend) (hb : bs[c % bs.length]? = some b)
    (halive : b.IsAlive = true) :
    LoadBalancer.SelectBackend ⟨bs, c⟩ =
      some (Except.ok b, ⟨bs, nextCursor c⟩, 1) := by
  show selectLoop ⟨bs, c⟩ bs.length 0 =
    some (Except.ok b, ⟨bs, nextCursor c⟩, 1)
  cases hl : bs.length with
  | zero => omega
  | succ m =>
    have hidx0 : selectIdx (⟨bs, c⟩ : LoadBalancer).backends.length
        (nextCursor (⟨bs, c⟩ : LoadBalancer).current) = c % bs.length :=
      selectIdx_eq _ _ hc
    simp only [selectLoop, hidx0]
    rw [hb]
    simp [halive]

/-- With an all-alive pool and a fresh cursor, after `i` calls the cursor
holds `i % 2 ^ 64` and the pool is unchanged. -/
theorem nthState_allAlive (bs : List Backend)
    (hall : ∀ b ∈ bs, b.IsAlive = true) (hlen : 0 < bs.length) :
    ∀ i, nthState ⟨bs, 0⟩ i = some ⟨bs, i % U64⟩ := by
  intro i
  induction i with
  | zero =>
    simp only [nthState, Nat.zero_mod]
  | succ n ih =>
    have hc : n % U64 < U64 := Nat.mod_lt _ U64_pos
    have hlt : (n % U64) % bs.length < bs.length := Nat.mod_lt _ hlen
    have hb : bs[(n % U64) % bs.length]? = some (bs[(n % U64) % bs.length]) :=
      List.getElem?_eq_getElem hlt
    have halive := hall _ (List.getElem_mem hlt)
    have hsel := select_step_alive bs (n % U64) hlen hc _ hb halive
    simp only [nthState, ih, hsel]
    have : nextCursor (n % U64) = (n + 1) % U64 := by
      simp only [nextCursor, Nat.mod_add_mod]
    rw [this]

/-- With an all-alive pool and a fresh cursor, the `i`-th sequential call
returns the backend at index `(i % 2 ^ 64) % N`. -/
theorem nthSelected_allAlive (bs : List Backend)
    (hall : ∀ b ∈ bs, b.IsAlive = true) (hlen : 0 < bs.length) (i : Nat) :
    nthSelected ⟨bs, 0⟩ i = bs[(i % U64) % bs.length]? := by
  have hc : i % U64 < U64 := Nat.mod_lt _ U64_pos
  have hlt : (i % U64) % bs.length < bs.length := Nat.mod_lt _ hlen
  have hb : bs[(i % U64) % bs.length]? = some (bs[(i % U64) % bs.length]) :=
    List.getElem?_eq_getElem hlt
  have halive := hall _ (List.getElem_mem hlt)
  have hsel := select_step_alive bs (i % U64) hlen hc _ hb halive
  simp only [nthSelected, nthState_allAlive bs hall hlen i, hsel]
  rw [hb]

/-- Among `k * N` consecutive naturals starting at 0, exactly `k` are
congruent to `j` modulo `N`. -/
theorem countP_mod_range (N j : Nat) (hj : j < N) :
    ∀ k, (List.range (k * N)).countP (fun i => decide (i % N = j)) = k := by
  intro k
  induction k with
  | zero => simp
  | succ m ih =>
    have hstep : (m + 1) * N = m * N + N := by ring
    rw [hstep, List.range_add, List.countP_append, ih, List.countP_map]
    have hcong : ∀ x ∈ List.range N,
        ((fun i => decide (i % N = j)) ∘ (fun x => m * N + x)) x = true ↔
          (fun x => decide (x = j)) x = true := by
      intro x hx
      rw [List.mem_range] at hx
      simp only [Function.comp_apply, decide_eq_true_eq]
      rw [Nat.mul_comm m N, Nat.mul_add_mod, Nat.mod_eq_of_lt hx]
    rw [List.countP_congr hcong]
    have hcong2 : ∀ x ∈ List.range N,
        (fun x => decide (x = j)) x = true ↔ (fun x => x == j) x = true := by
      intro x _
      simp
    rw [List.countP_congr hcong2]
    have : (List.range N).countP (fun x => x == j) = (List.range N).count j := rfl
    rw [this, List.count_eq_one_of_mem (List.nodup_range N) (List.mem_range.mpr hj)]

/-- On a duplicate-free list, optional indexing is injective on in-range
indices. -/
theorem getElem?_eq_iff_of_nodup (bs : List Backend) (hnd : bs.Nodup)
    (a j : Nat) (ha : a < bs.length) :
    (bs[a]? = bs[j]?) ↔ a = j := by
  constructor
  · exact fun h => List.getElem?_inj ha hnd h
  · intro h; rw [h]

/-! ### Claim theorems -/

/-- C1 (amended): for a pool of `N` distinct all-alive backends and a fresh
balancer, as long as the `uint64` cursor has not wrapped (`i < 2 ^ 64`), the
`i`-th sequential `SelectBackend` call (0-indexed) returns the backend at
position `i % N`; and over `M = k * N ≤ 2 ^ 64` sequential calls the backend
at each position `j` is returned exactly `k` times. -/
theorem C1_round_robin_rotation (bs : List Backend)
    (hall : ∀ b ∈ bs, b.IsAlive = true) (hnd : bs.Nodup)
    (hlen : 0 < bs.length) :
    (∀ i, i < U64 → nthSelected ⟨bs, 0⟩ i = bs[i % bs.length]?) ∧
    (∀ k j, j < bs.length → k * bs.length ≤ U64 →
      (List.range (k * bs.length)).countP
        (fun i => decide (nthSelected ⟨bs, 0⟩ i = bs[j]?)) = k) := by
  constructor
  · intro i hi
    rw [nthSelected_allAlive bs hall hlen i, Nat.mod_eq_of_lt hi]
  · intro k j hj hk
    have hcong : ∀ i ∈ List.range (k * bs.length),
        (fun i => decide (nthSelected ⟨bs, 0⟩ i = bs[j]?)) i = true ↔
          (fun i => decide (i % bs.length = j)) i = true := by
      intro i hi
      rw [List.mem_range] at hi
      have hiU : i < U64 := by omega
      simp only [decide_eq_true_eq]
      rw [nthSelected_allAlive bs hall hlen i, Nat.mod_eq_of_lt hiU]
      exact getElem?_eq_iff_of_nodup bs hnd _ _ (Nat.mod_lt _ hlen)
    rw [List.countP_congr hcong]
    exact countP_mod_range bs.length j hj k

/-- Witness for C1: on a fresh two-backend all-alive pool, call number 3
returns the backend at index `3 % 2 = 1`, and over `2 * 2` calls the backend
at index 0 is returned exactly twice. -/
theorem C1_round_robin_rotation_witness :
    ((∀ b ∈ ([⟨"a", true⟩, ⟨"b", true⟩] : List Backend), b.IsAlive = true) ∧
      ([⟨"a", true⟩, ⟨"b", true⟩] : List Backend).Nodup ∧ (3 : Nat) < U64) ∧
    nthSelected ⟨[⟨"a", true⟩, ⟨"b", true⟩], 0⟩ 3 =
      ([⟨"a", true⟩, ⟨"b", true⟩] : List Backend)[3 % 2]? ∧
    (List.range (2 * 2)).countP
      (fun i => decide (nthSelected ⟨[⟨"a", true⟩, ⟨"b", true⟩], 0⟩ i =
        ([⟨"a", true⟩, ⟨"b", true⟩] : List Backend)[0]?)) = 2 :=
  ⟨⟨by decide, by decide, by decide⟩,
    (C1_round_robin_rotation _ (by decide) (by decide) (by decide)).1 3 (by decide),
    (C1_round_robin_rotation _ (by decide) (by decide) (by decide)).2 2 0
      (by decide) (by decide)⟩

/-- Counterexample to C1 as stated: on a fresh three-backend all-alive pool,
call number `2 ^ 64` (the first call after the `uint64` cursor wraps) returns
the backend at index 0, not the backend at index `2 ^ 64 % 3 = 1`. -/
theorem C1_counterexample :
    nthSelected ⟨[⟨"a", true⟩, ⟨"b", true⟩, ⟨"c", true⟩], 0⟩ U64 =
      some ⟨"a", true⟩ ∧
    U64 % 3 = 1 ∧
    ([⟨"a", true⟩, ⟨"b", true⟩, ⟨"c", true⟩] : List Backend)[U64 % 3]? =
      some ⟨"b", true⟩ ∧
    Backend.mk "a" true ≠ Backend.mk "b" true := by
  refine ⟨?_, by decide, by decide, by decide⟩
  rw [nthSelected_allAlive _ (by decide) (by decide) U64]
  decide

/-- C2 (amended): with exactly one alive backend among `N`, and a starting
cursor whose `N`-step scan does not cross the `uint64` wraparound point
(`c + N ≤ 2 ^ 64`), `SelectBackend` returns the alive backend within at
most `N` liveness checks. -/
theorem C2_unique_alive_found (bs : List Backend) (c j : Nat) (b : Backend)
    (hlen : 0 < bs.length) (hwrap : c + bs.length ≤ U64)
    (hj : bs[j]? = some b) (halive : b.IsAlive = true)
    (huniq : ∀ i, i < bs.length → ∀ bi, bs[i]? = some bi →
      bi.IsAlive = true → i = j) :
    ∃ lb' k, LoadBalancer.SelectBackend ⟨bs, c⟩ = some (Except.ok b, lb', k) ∧
      k ≤ bs.length := by
  cases hres : LoadBalancer.SelectBackend ⟨bs, c⟩ with
  | none => exact absurd hres (selectLoop_isSome bs.length ⟨bs, c⟩ 0 hlen)
  | some r =>
    obtain ⟨res, lb', k⟩ := r
    cases res with
    | error e =>
      exfalso
      have hdead := selectLoop_error_dead bs.length ⟨bs, c⟩ 0 e lb' k hwrap hres
      have hjlt : j < bs.length := (List.getElem?_eq_some_iff.mp hj).1
      obtain ⟨t, ht, htj⟩ := exists_shift_mod bs.length j c hlen hjlt
      have hbt := hdead t ht b (by
        show bs[(c + t) % bs.length]? = some b
        rw [htj]; exact hj)
      rw [halive] at hbt
      cases hbt
    | ok b0 =>
      obtain ⟨hb0alive, ⟨i, hilt, hib⟩, hk⟩ :=
        selectLoop_ok bs.length ⟨bs, c⟩ 0 b0 lb' k hres
      have hij := huniq i hilt b0 hib hb0alive
      rw [hij, hj] at hib
      injection hib with hbb
      exact ⟨lb', k, by rw [hbb], by omega⟩

/-- Witness for C2: a two-backend pool whose only alive backend sits at
index 1, scanned from cursor 5, is found within 2 checks. -/
theorem C2_unique_alive_found_witness :
    ((5 : Nat) + 2 ≤ U64 ∧
      (Backend.mk "b" true).IsAlive = true) ∧
    (∃ lb' k, LoadBalancer.SelectBackend ⟨[⟨"a", false⟩, ⟨"b", true⟩], 5⟩ =
        some (Except.ok ⟨"b", true⟩, lb', k) ∧ k ≤ 2) :=
  ⟨⟨by decide, by decide⟩,
    C2_unique_alive_found [⟨"a", false⟩, ⟨"b", true⟩] 5 1 ⟨"b", true⟩
      (by decide) (by decide) (by decide) (by decide)
      (by
        intro i hi bi hbi hbialive
        match i, hi with
        | 0, _ =>
          simp only [List.getElem?_cons_zero, Option.some.injEq] at hbi
          rw [← hbi] at hbialive
          cases hbialive
        | 1, _ => rfl)⟩

/-- Counterexample to C2 as stated: with the only alive backend at index 2
of a three-backend pool and the cursor at `2 ^ 64 - 1`, the scanned indices
are `0, 0, 1` (the `uint64` increment wraps and `2 ^ 64 % 3 ≠ 0`), so
`SelectBackend` reports all backends offline even though one is alive. -/
theorem C2_counterexample :
    ((List.filter (fun b => b.IsAlive)
        [⟨"a", false⟩, ⟨"b", false⟩, ⟨"c", true⟩] : List Backend).length = 1) ∧
    LoadBalancer.SelectBackend ⟨[⟨"a", false⟩, ⟨"b", false⟩, ⟨"c", true⟩], U64 - 1⟩ =
      some (Except.error "all backends are offline",
        ⟨[⟨"a", false⟩, ⟨"b", false⟩, ⟨"c", true⟩], 2⟩, 3) := by
  constructor
  · decide
  · decide

/-- Shared helper: on a pool whose backends all read dead, `SelectBackend`
performs exactly one liveness check per backend — `N` in total — leaves the
pool unchanged, and returns the all-offline error. -/
theorem selectBackend_allDead (lb : LoadBalancer)
    (hdead : ∀ b ∈ lb.backends, b.IsAlive = false) :
    ∃ lb', lb.SelectBackend =
        some (Except.error "all backends are offline", lb', lb.backends.length) ∧
      lb'.backends = lb.backends := by
  rcases Nat.eq_zero_or_pos lb.backends.length with hl | hl
  · refine ⟨lb, ?_, rfl⟩
    show selectLoop lb lb.backends.length 0 = _
    rw [hl]
    simp [selectLoop]
  · obtain ⟨lb', h1, h2⟩ := selectLoop_allDead lb.backends.length lb 0 hl hdead
    rw [Nat.zero_add] at h1
    exact ⟨lb', h1, h2⟩

/-- C3: when every backend's flag reads `false`, `SelectBackend` performs
exactly `N` liveness checks (hence at most `N` attempts), returns no
backend, and fails with the error whose message says all backends are
offline; the bounded scan is the whole of the call. -/
theorem C3_all_dead_error (lb : LoadBalancer)
    (hdead : ∀ b ∈ lb.backends, b.IsAlive = false) :
    ∃ lb', lb.SelectBackend =
        some (Except.error "all backends are offline", lb', lb.backends.length) ∧
      lb'.backends = lb.backends :=
  selectBackend_allDead lb hdead

/-- Witness for C3: a concrete two-backend all-dead pool fails with the
all-offline error after exactly 2 checks. -/
theorem C3_all_dead_error_witness :
    (∀ b ∈ (LoadBalancer.mk [⟨"a", false⟩, ⟨"b", false⟩] 7).backends,
      b.IsAlive = false) ∧
    (∃ lb', (LoadBalancer.mk [⟨"a", false⟩, ⟨"b", false⟩] 7).SelectBackend =
        some (Except.error "all backends are offline", lb', 2) ∧
      lb'.backends = [⟨"a", false⟩, ⟨"b", false⟩]) :=
  ⟨by decide,
    C3_all_dead_error (LoadBalancer.mk [⟨"a", false⟩, ⟨"b", false⟩] 7) (by decide)⟩

/-- C4: a backend returned by `SelectBackend` read alive at its liveness
check (flags are fixed during the call in this sequential model), and it
belongs to the pool; a backend whose flag read `false` is never returned. -/
theorem C4_skip_dead (lb : LoadBalancer) (b : Backend) (lb' : LoadBalancer)
    (k : Nat) (h : lb.SelectBackend = some (Except.ok b, lb', k)) :
    b.IsAlive = true ∧ ∃ i, i < lb.backends.length ∧ lb.backends[i]? = some b := by
  obtain ⟨h1, h2, _⟩ := selectLoop_ok lb.backends.length lb 0 b lb' k h
  exact ⟨h1, h2⟩

/-- Witness for C4: a pool with a dead backend at index 0 returns the alive
backend at index 1, which indeed reads alive and is a pool member. -/
theorem C4_skip_dead_witness :
    (LoadBalancer.mk [⟨"a", false⟩, ⟨"b", true⟩] 0).SelectBackend =
      some (Except.ok ⟨"b", true⟩, LoadBalancer.mk [⟨"a", false⟩, ⟨"b", true⟩] 2, 2) ∧
    ((Backend.mk "b" true).IsAlive = true ∧
      ∃ i, i < (LoadBalancer.mk [⟨"a", false⟩, ⟨"b", true⟩] 0).backends.length ∧
        (LoadBalancer.mk [⟨"a", false⟩, ⟨"b", true⟩] 0).backends[i]? =
          some ⟨"b", true⟩) :=
  ⟨by decide,
    C4_skip_dead (LoadBalancer.mk [⟨"a", false⟩, ⟨"b", true⟩] 0) ⟨"b", true⟩
      (LoadBalancer.mk [⟨"a", false⟩, ⟨"b", true⟩] 2) 2 (by decide)⟩

/-- C6 (amended): the health check sets the liveness flag to `true` exactly
when the probe yielded a response with status 200 (`http.StatusOK`); every
other status — including the rest of the 2xx class — and every
failure (connection error or timeout) sets it to `false`; the resulting
flag depends only on the probe outcome, not on the previous flag. -/
theorem C6_alive_iff_status200 (b : Backend) (r : ProbeResult) :
    ((checkBackend b r).IsAlive = true ↔ r = ProbeResult.response 200) ∧
    (∀ b2, (checkBackend b2 r).IsAlive = (checkBackend b r).IsAlive) := by
  constructor
  · cases r with
    | failure => simp [checkBackend, Backend.SetAlive, Backend.IsAlive]
    | response s =>
      by_cases hs : s = 200
      · subst hs
        simp [checkBackend, Backend.SetAlive, Backend.IsAlive]
      · simp [checkBackend, Backend.SetAlive, Backend.IsAlive, hs]
  · intro b2
    cases r with
    | failure => rfl
    | response s =>
      by_cases hs : s = 200
      · subst hs; rfl
      · simp [checkBackend, Backend.SetAlive, Backend.IsAlive, hs]

/-- Counterexample to C6 as stated: status 201 is in the 2xx success class
(as the spec-side predicate confirms), yet the code marks the backend dead,
because it compares the status against `http.StatusOK` (200) only. -/
theorem C6_counterexample :
    specAlive2xx (ProbeResult.response 201) = true ∧
    (checkBackend (NewBackend "http://backend1")
      (ProbeResult.response 201)).IsAlive = false := by
  constructor
  · decide
  · decide

/-- C7: constructing with an empty backend list fails with the configuration
error and yields no balancer; constructing with one backend succeeds, and if
that backend is alive then `SelectBackend` returns it from every cursor
state, after a single check. -/
theorem C7_construction (b : Backend) (c : Nat) (hc : c < U64) :
    New [] = Except.error "at least one backend is required" ∧
    New [b] = Except.ok ⟨[b], 0⟩ ∧
    (b.IsAlive = true →
      LoadBalancer.SelectBackend ⟨[b], c⟩ =
        some (Except.ok b, ⟨[b], nextCursor c⟩, 1)) := by
  refine ⟨rfl, rfl, ?_⟩
  intro halive
  have hb : ([b] : List Backend)[c % 1]? = some b := by
    rw [Nat.mod_one]
    rfl
  exact select_step_alive [b] c (by simp) hc b hb halive

/-- Witness for C7: a single alive backend is returned from cursor state 5. -/
theorem C7_construction_witness :
    ((5 : Nat) < U64 ∧ (Backend.mk "u" true).IsAlive = true) ∧
    LoadBalancer.SelectBackend ⟨[⟨"u", true⟩], 5⟩ =
      some (Except.ok ⟨"u", true⟩, ⟨[⟨"u", true⟩], nextCursor 5⟩, 1) :=
  ⟨⟨by decide, by decide⟩, (C7_construction ⟨"u", true⟩ 5 (by decide)).2.2 (by decide)⟩

/-- C8: `SelectBackend` mutates nothing but the cursor: whatever it returns,
the backend list of the resulting balancer state — liveness flags, URLs,
membership and order — is exactly the input's. -/
theorem C8_cursor_only_mutation (lb : LoadBalancer) (r : Except String Backend)
    (lb' : LoadBalancer) (k : Nat) (h : lb.SelectBackend = some (r, lb', k)) :
    lb'.backends = lb.backends :=
  selectLoop_backends lb.backends.length lb 0 r lb' k h

/-- Witness for C8: a failing call on an all-dead pool leaves the backend
list untouched. -/
theorem C8_cursor_only_mutation_witness :
    (LoadBalancer.mk [⟨"a", false⟩, ⟨"b", true⟩] 0).SelectBackend =
      some (Except.ok ⟨"b", true⟩, LoadBalancer.mk [⟨"a", false⟩, ⟨"b", true⟩] 2, 2) ∧
    (LoadBalancer.mk [⟨"a", false⟩, ⟨"b", true⟩] 2).backends =
      (LoadBalancer.mk [⟨"a", false⟩, ⟨"b", true⟩] 0).backends :=
  ⟨by decide,
    C8_cursor_only_mutation (LoadBalancer.mk [⟨"a", false⟩, ⟨"b", true⟩] 0)
      (Except.ok ⟨"b", true⟩) (LoadBalancer.mk [⟨"a", false⟩, ⟨"b", true⟩] 2) 2
      (by decide)⟩

/-- C9: for every pool of length at least 1 and every cursor value —
including at the `uint64` wraparound — the computed slice index is strictly
below the pool length, and `SelectBackend` never performs an out-of-range
access (the model never returns `none`, i.e. the Go code never panics). -/
theorem C9_index_in_bounds (bs : List Backend) (c : Nat)
    (hlen : 0 < bs.length) :
    selectIdx bs.length (nextCursor c) < bs.length ∧
    LoadBalancer.SelectBackend ⟨bs, c⟩ ≠ none :=
  ⟨Nat.mod_lt _ hlen, selectLoop_isSome bs.length ⟨bs, c⟩ 0 hlen⟩

/-- Witness for C9: at the wraparound cursor `2 ^ 64 - 1` on a one-backend
pool the index stays in bounds and the call returns a result. -/
theorem C9_index_in_bounds_witness :
    0 < ([⟨"a", false⟩] : List Backend).length ∧
    (selectIdx ([⟨"a", false⟩] : List Backend).length (nextCursor (U64 - 1)) <
        ([⟨"a", false⟩] : List Backend).length ∧
      LoadBalancer.SelectBackend ⟨[⟨"a", false⟩], U64 - 1⟩ ≠ none) :=
  ⟨by decide, C9_index_in_bounds [⟨"a", false⟩] (U64 - 1) (by decide)⟩

/-- C10: a newly constructed backend starts dead, so any balancer freshly
built over `NewBackend`-made backends — before any `SetAlive(true)` or
completed probe — fails every `SelectBackend` call (from any cursor state
over that pool) with the all-offline error after `N` checks, and
`GetHealthyBackends` is empty. -/
theorem C10_fresh_pool_offline (urls : List String) (lb : LoadBalancer)
    (h : New (urls.map NewBackend) = Except.ok lb) :
    (∀ u, (NewBackend u).IsAlive = false) ∧
    (∀ c, ∃ lb', (LoadBalancer.mk lb.backends c).SelectBackend =
        some (Except.error "all backends are offline", lb',
          lb.backends.length)) ∧
    lb.GetHealthyBackends = [] := by
  have hlb : lb = ⟨urls.map NewBackend, 0⟩ := by
    simp only [New] at h
    by_cases hl : (urls.map NewBackend).length = 0
    · rw [if_pos hl] at h; cases h
    · rw [if_neg hl] at h
      injection h with h2
      rw [← h2]
  subst hlb
  have hdead : ∀ b ∈ urls.map NewBackend, b.IsAlive = false := by
    intro b hb
    rw [List.mem_map] at hb
    obtain ⟨u, _, hu⟩ := hb
    rw [← hu]; rfl
  refine ⟨fun u => rfl, ?_, ?_⟩
  · intro c
    obtain ⟨lb', h1, _⟩ :=
      selectBackend_allDead (LoadBalancer.mk (urls.map NewBackend) c) hdead
    exact ⟨lb', h1⟩
  · show (urls.map NewBackend).filter (fun b => b.IsAlive) = []
    rw [List.filter_eq_nil_iff]
    intro b hb
    rw [hdead b hb]
    intro hfalse
    cases hfalse

/-- Witness for C10: a fresh two-backend balancer fails selection from
cursor 3 and reports no healthy backends. -/
theorem C10_fresh_pool_offline_witness :
    New (["u1", "u2"].map NewBackend) =
      Except.ok (LoadBalancer.mk [NewBackend "u1", NewBackend "u2"] 0) ∧
    (∃ lb', (LoadBalancer.mk
          (LoadBalancer.mk [NewBackend "u1", NewBackend "u2"] 0).backends
          3).SelectBackend =
        some (Except.error "all backends are offline", lb', 2)) ∧
    (LoadBalancer.mk [NewBackend "u1", NewBackend "u2"] 0).GetHealthyBackends
      = [] :=
  ⟨by decide,
    (C10_fresh_pool_offline ["u1", "u2"]
      (LoadBalancer.mk [NewBackend "u1", NewBackend "u2"] 0) (by decide)).2.1 3,
    (C10_fresh_pool_offline ["u1", "u2"]
      (LoadBalancer.mk [NewBackend "u1", NewBackend "u2"] 0) (by decide)).2.2⟩

end LB
